import Mathlib

set_option linter.unusedVariables false
set_option autoImplicit false

/-!
Verification of the audio-visualizer spectrogram core.

Shallow embedding conventions:
* JS `number` values are modelled as exact rationals (`ℚ`); the claims under
  consideration are about exact algebraic structure, not float rounding.
* The transcendental library functions `Math.PI`, `Math.cos`, `Math.sin`,
  `Math.sqrt`, `Math.log10` are abstracted into a parameter record `JSMath`,
  so the whole development stays computable and theorems quantify over all
  interpretations of these functions (hypotheses such as `sqrt 0 = 0` are
  added where a claim needs a true fact about the real function).
* `Float32Array` buffers are `List ℚ`.  Out-of-range reads are modelled with
  `List.getD _ _ 0`; the analysed claims never exercise out-of-range reads.
* Code that `throw`s is modelled with `Except String`.
-/

/-- Abstraction of the numeric library functions used by the worker code. -/
structure JSMath where
  pi : ℚ
  cos : ℚ → ℚ
  sin : ℚ → ℚ
  sqrt : ℚ → ℚ
  log10 : ℚ → ℚ

/-- `Math.round` for nonnegative JS numbers: floor of `x + 1/2`. -/
def jsRound (x : ℚ) : ℤ := ⌊x + 1/2⌋

/-- All entries of a buffer are zero. -/
def AllZero (l : List ℚ) : Prop := ∀ x ∈ l, x = 0

instance (l : List ℚ) : Decidable (AllZero l) := by
  unfold AllZero; infer_instance

/-- Swap entries `i` and `j` of a buffer (the three-assignment swap in
`performFFT`'s bit-reversal pass, `spectrumWorker.ts` lines 84-91). -/
def listSwap (l : List ℚ) (i j : Nat) : List ℚ :=
  let a := l.getD i 0
  let b := l.getD j 0
  (l.set i b).set j a

/-- The inner `while (k <= j) { j -= k; k /= 2; }` of the bit-reversal pass
(`spectrumWorker.ts` lines 93-97).  The loop is given fuel; on every call
actually made by `performFFT` on a power-of-two length the loop runs at most
`log2 n + 1` times, so fuel `n` never runs out. -/
def revWhile : Nat → Nat → Nat → Nat × Nat
  | 0, k, j => (k, j)
  | fuel+1, k, j => if k ≤ j then revWhile fuel (k/2) (j - k) else (k, j)

/-- Bit-reversal permutation pass of `performFFT`
(`spectrumWorker.ts` lines 79-99): for `i = 0 .. n-2`, swap when `i < j`,
then advance `j` by the carry loop. -/
def bitrevPass (n : Nat) (real imag : List ℚ) : List ℚ × List ℚ :=
  let st := (List.range (n - 1)).foldl
    (fun (st : Nat × List ℚ × List ℚ) (i : Nat) =>
      let j := st.1
      let r := st.2.1
      let im := st.2.2
      let r2 := if i < j then listSwap r i j else r
      let im2 := if i < j then listSwap im i j else im
      let kj := revWhile n (n / 2) j
      (kj.2 + kj.1, r2, im2))
    (0, real, imag)
  (st.2.1, st.2.2)

/-- One butterfly update at indices `idx1`, `idx2` with twiddle angle `th`
(`spectrumWorker.ts` lines 106-119).  `tReal`/`tImag` are computed from the
pre-update values, then the four writes are performed; the source order
(write `idx2`, then read-modify-write `idx1`) is reproduced, noting that the
old `real[idx1]`/`imag[idx1]` are still in place when read because
`idx1 ≠ idx2`. -/
def butterfly (M : JSMath) (m : Nat) (i j : Nat) (st : List ℚ × List ℚ) :
    List ℚ × List ℚ :=
  let r := st.1
  let im := st.2
  let mHalf := m / 2
  let th := -(M.pi * 2) * (j : ℚ) / (m : ℚ)
  let c := M.cos th
  let s := M.sin th
  let idx1 := i + j
  let idx2 := idx1 + mHalf
  let tReal := r.getD idx2 0 * c - im.getD idx2 0 * s
  let tImag := r.getD idx2 0 * s + im.getD idx2 0 * c
  let a1 := r.getD idx1 0
  let b1 := im.getD idx1 0
  let r2 := (r.set idx2 (a1 - tReal)).set idx1 (a1 + tReal)
  let im2 := (im.set idx2 (b1 - tImag)).set idx1 (b1 + tImag)
  (r2, im2)

/-- Fuel-driven helper for `log2floor` (fuel `n` suffices for input `n`). -/
def log2floorAux : Nat → Nat → Nat
  | 0, _ => 0
  | fuel+1, m => if 2 ≤ m then log2floorAux fuel (m / 2) + 1 else 0

/-- `⌊log₂ n⌋`, defined by structural recursion (on fuel) so that it reduces
inside the kernel; gives the number of butterfly stages, i.e. how many times
`m` can double from 2 while staying `≤ n`. -/
def log2floor (n : Nat) : Nat := log2floorAux n n

/-- The butterfly stages of `performFFT` (`spectrumWorker.ts` lines 101-122):
`m` runs through `2, 4, …` while `m ≤ n` (for the power-of-two inputs on
which the kernel is actually run this is `2^1 … 2^(log2 n)`), `i` steps by
`m` while `i < n`, and `j` runs over `0 … m/2 - 1`. -/
def butterflyStages (M : JSMath) (n : Nat) (real imag : List ℚ) :
    List ℚ × List ℚ :=
  (List.range (log2floor n)).foldl
    (fun st s =>
      let m := 2 ^ (s + 1)
      (List.range ((n + m - 1) / m)).foldl
        (fun st2 iIdx =>
          (List.range (m / 2)).foldl
            (fun st3 j => butterfly M m (iIdx * m) j st3)
            st2)
        st)
    (real, imag)

/-- In-place FFT `performFFT(real, imag, n)` (`spectrumWorker.ts` lines
78-123), modelled as a function from the two buffers to their final states. -/
def performFFT (M : JSMath) (real imag : List ℚ) (n : Nat) :
    List ℚ × List ℚ :=
  let p := bitrevPass n real imag
  butterflyStages M n p.1 p.2

/-- The success value of `computeFFT`: magnitudes `|complex(i)| / n` for
`i < n/2` (`spectrumWorker.ts` lines 54-72).  `magnitude(r, i) =
Math.sqrt(r*r + i*i)`. -/
def fftMagnitudes (M : JSMath) (signal : List ℚ) : List ℚ :=
  let n := signal.length
  let p := performFFT M signal (List.replicate n 0) n
  (List.range (n / 2)).map
    (fun i => M.sqrt (p.1.getD i 0 * p.1.getD i 0 + p.2.getD i 0 * p.2.getD i 0) / (n : ℚ))

/-- `computeFFT(signal)` (`spectrumWorker.ts` lines 46-73).
The guard `(n & (n-1)) !== 0` throws `'FFT size must be a power of 2'`;
for JS array lengths (`0 ≤ n < 2^32`) the int32 `&` agrees with `Nat.land`
(including `n = 0`, where JS computes `0 & -1 = 0` and `Nat` computes
`0 &&& 0 = 0`).  A guard-passing odd length (only `n = 1`) reaches
`new Array(n/2)` with the non-integer length `0.5`, which throws a JS
`RangeError ('Invalid array length')`. -/
def computeFFT (M : JSMath) (signal : List ℚ) : Except String (List ℚ) :=
  let n := signal.length
  if Nat.land n (n - 1) ≠ 0 then .error "FFT size must be a power of 2"
  else if n ≠ 0 ∧ ¬ 2 ∣ n then .error "Invalid array length"
  else .ok (fftMagnitudes M signal)

/-- `applyHannWindow(signal)` (`spectrumWorker.ts` lines 129-140): a fresh
buffer with `result[i] = signal[i] * 0.5 * (1 - cos(2π i /(n-1)))`. -/
def applyHannWindow (M : JSMath) (signal : List ℚ) : List ℚ :=
  let n := signal.length
  (List.range n).map
    (fun i => signal.getD i 0 * (1/2 * (1 - M.cos (2 * M.pi * (i : ℚ) / ((n : ℚ) - 1)))))

theorem applyHannWindow_length (M : JSMath) (signal : List ℚ) :
    (applyHannWindow M signal).length = signal.length := by
  simp [applyHannWindow]

/-- Channel downmix inside `analyzeAudioSlice` (`spectrumWorker.ts` lines
240-255): sample-wise average when there is more than one channel, otherwise
the single channel is used directly. -/
def combineChannels (channelData : List (List ℚ)) : List ℚ :=
  if channelData.length > 1 then
    (List.range (channelData.headD []).length).map
      (fun i => ((channelData.map (fun ch => ch.getD i 0)).sum) / (channelData.length : ℚ))
  else channelData.headD []

/-- The zero-initialised `dataForFFT` buffer of length `fftSize`
(`spectrumWorker.ts` lines 259-266): the first
`copyLength = min(combined.length, fftSize)` samples are copied, the rest
stay zero (zero-padding of short slices, truncation of long ones). -/
def padToFFT (combined : List ℚ) (fftSize : Nat) : List ℚ :=
  let copyLength := min combined.length fftSize
  (List.range fftSize).map (fun i => if i < copyLength then combined.getD i 0 else 0)

theorem padToFFT_length (combined : List ℚ) (fftSize : Nat) :
    (padToFFT combined fftSize).length = fftSize := by
  simp [padToFFT]

/-- Post-processing of the magnitudes in the current `analyzeAudioSlice`
(`spectrumWorker.ts` lines 281-298): uniform gain `2.0` on every bin, then
logarithmic compression `mag > 0 ? log10(1 + mag*25) : 0`. -/
def weightAndCompress (M : JSMath) (mags : List ℚ) : List ℚ :=
  (mags.map (fun m => m * 2)).map (fun mag => if mag > 0 then M.log10 (1 + mag * 25) else 0)

/-- `analyzeAudioSlice(channelData, sampleRate, fftSize)` of the current
spectrum worker (`spectrumWorker.ts` lines 234-304).  The whole body is
wrapped in `try/catch`; on any caught error the function returns
`new Array(fftSize / 2).fill(0)`.  For odd `fftSize` that expression itself
throws a `RangeError` (non-integer array length), which then propagates.
`sampleRate` is accepted but unused by the current version. -/
def analyzeAudioSlice (M : JSMath) (channelData : List (List ℚ))
    (sampleRate : ℚ) (fftSize : Nat) : Except String (List ℚ) :=
  match computeFFT M (applyHannWindow M (padToFFT (combineChannels channelData) fftSize)) with
  | .ok mags => .ok (weightAndCompress M mags)
  | .error _ =>
    if 2 ∣ fftSize then .ok (List.replicate (fftSize / 2) 0)
    else .error "Invalid array length"

/-- The value produced by `analyzeAudioSlice` on the success path. -/
def frameValue (M : JSMath) (channelData : List (List ℚ)) (fftSize : Nat) : List ℚ :=
  weightAndCompress M
    (fftMagnitudes M (applyHannWindow M (padToFFT (combineChannels channelData) fftSize)))

theorem analyzeAudioSlice_ok_of_pow2 (M : JSMath) (channelData : List (List ℚ))
    (sampleRate : ℚ) (fftSize : Nat)
    (hpow : Nat.land fftSize (fftSize - 1) = 0) (h2 : 2 ∣ fftSize) :
    analyzeAudioSlice M channelData sampleRate fftSize =
      .ok (frameValue M channelData fftSize) := by
  have hlen : (applyHannWindow M (padToFFT (combineChannels channelData) fftSize)).length
      = fftSize := by
    rw [applyHannWindow_length, padToFFT_length]
  have hodd : ¬ (¬ fftSize = 0 ∧ fftSize % 2 = 1) := by
    obtain ⟨k, hk⟩ := h2
    omega
  unfold analyzeAudioSlice computeFFT
  rw [hlen]
  simp [hpow, hodd, frameValue]

/-- Messages posted by the spectrum worker (`spectrumWorker.ts` lines 15-31):
`progress {progress, currentSlice, totalSlices, partialResult}`,
`result {spectrumData}` and `error {error}`.  (`partRes` stands for the
source field `partialResult`.) -/
inductive SpectrumMsg where
  | progress (progress : ℤ) (currentSlice totalSlices : Nat) (partRes : List (List ℚ))
  | result (spectrumData : List (List ℚ))
  | error (msg : String)
  deriving DecidableEq

/-- `buf.slice(s, e)` (`spectrumWorker.ts` line 196): the extracted copy
together with the state of the buffer after the call —
`Array.prototype.slice` reads the range and leaves the buffer untouched. -/
def extractSlice (buf : List ℚ) (s e : Nat) : List ℚ × List ℚ :=
  ((buf.drop s).take (e - s), buf)

/-- The per-channel slice extraction loop (`spectrumWorker.ts` lines
194-197), threading the channel-buffer store through each `slice` call. -/
def extractSlices (buffers : List (List ℚ)) (channels s e : Nat) :
    List (List ℚ) × List (List ℚ) :=
  (List.range channels).foldl
    (fun acc c =>
      let p := extractSlice (acc.2.getD c []) s e
      (acc.1 ++ [p.1], acc.2.set c p.2))
    ([], buffers)

theorem list_set_getD {α : Type} (l : List α) (n : Nat) (d : α) :
    l.set n (l.getD n d) = l := by
  induction l generalizing n with
  | nil => rfl
  | cons a t ih =>
    cases n with
    | zero => rfl
    | succ m => simpa using ih m

theorem extractSlices_spec (buffers : List (List ℚ)) (channels s e : Nat) :
    extractSlices buffers channels s e =
      ((List.range channels).map (fun c => ((buffers.getD c []).drop s).take (e - s)),
       buffers) := by
  have go : ∀ (cs : List Nat) (sl : List (List ℚ)),
      cs.foldl
        (fun acc c =>
          let p := extractSlice (acc.2.getD c []) s e
          (acc.1 ++ [p.1], acc.2.set c p.2))
        (sl, buffers)
      = (sl ++ cs.map (fun c => ((buffers.getD c []).drop s).take (e - s)), buffers) := by
    intro cs
    induction cs with
    | nil => intro sl; simp
    | cons c cs ih =>
      intro sl
      rw [List.foldl_cons]
      show List.foldl _ (sl ++ [((buffers.getD c []).drop s).take (e - s)],
          buffers.set c (buffers.getD c [])) cs = _
      rw [list_set_getD, ih]
      simp
  unfold extractSlices
  rw [go]
  simp

/-- `numSlices = Math.ceil(duration / timeSlice)` (`spectrumWorker.ts` line
169); a non-positive value makes the `for` loop run zero times, which the
`toNat` collapse reproduces. -/
def numSlicesOf (duration timeSlice : ℚ) : Nat := (⌈duration / timeSlice⌉).toNat

/-- `samplesPerSlice = Math.floor(sampleRate * timeSlice)` (`spectrumWorker.ts`
line 176); a negative value makes `endSample <= startSample` hold at once
(immediate break), exactly as the `toNat` collapse to `0` does. -/
def samplesPerSliceOf (sampleRate timeSlice : ℚ) : Nat :=
  (⌊sampleRate * timeSlice⌋).toNat

/-- The per-slice `for` loop of `analyzeSpectrum` (`spectrumWorker.ts` lines
185-227) together with its terminal message.  Arguments after the fixed
parameters: fuel (the wrapper passes `numSlices`, which never runs out
because the loop index is bounded by `numSlices`), the slice index, the
channel-buffer store, and the grid built so far.  Returns the final buffer
store, the final grid, and the posted messages: progress messages in loop
order, then exactly one terminal `result` — or a single `error` message if a
slice analysis threw (the worker's `onmessage` catch, lines 149-155).
The cooperative `setTimeout` yield (line 218) posts no message and is not
modelled. -/
def sliceLoop (M : JSMath) (sampleRate : ℚ) (channels N spp fftSize : Nat) :
    Nat → Nat → List (List ℚ) → List (List ℚ) →
    List (List ℚ) × List (List ℚ) × List SpectrumMsg
  | 0, _, buffers, grid => (buffers, grid, [SpectrumMsg.result grid])
  | fuel+1, i, buffers, grid =>
    if i < N then
      let total := (buffers.headD []).length
      let start := i * spp
      let endS := min (start + spp) total
      if endS ≤ start then (buffers, grid, [SpectrumMsg.result grid])
      else
        let p := extractSlices buffers channels start endS
        match analyzeAudioSlice M p.1 sampleRate fftSize with
        | .error e => (p.2, grid, [SpectrumMsg.error e])
        | .ok frame =>
          let grid2 := grid ++ [frame]
          let emit :=
            if i % (max 1 (N / 20)) = 0 ∨ i = N - 1 then
              [SpectrumMsg.progress (jsRound (((i : ℚ) + 1) / (N : ℚ) * 100)) (i + 1) N grid2]
            else []
          let rest := sliceLoop M sampleRate channels N spp fftSize fuel (i + 1) p.2 grid2
          (rest.1, rest.2.1, emit ++ rest.2.2)
    else (buffers, grid, [SpectrumMsg.result grid])

/-- `analyzeSpectrum(audioData, sampleRate, duration, timeSlice, channels)`
(`spectrumWorker.ts` lines 161-228) with the hard-coded `fftSize = 4096`.
Returns the channel-buffer store as left by the call, the grid, and the
posted messages. -/
def analyzeSpectrum (M : JSMath) (audioData : List (List ℚ))
    (sampleRate duration timeSlice : ℚ) (channels : Nat) :
    List (List ℚ) × List (List ℚ) × List SpectrumMsg :=
  let N := numSlicesOf duration timeSlice
  let spp := samplesPerSliceOf sampleRate timeSlice
  sliceLoop M sampleRate channels N spp 4096 N 0 audioData []

theorem sliceLoop_buffers (M : JSMath) (sampleRate : ℚ)
    (channels N spp fftSize : Nat) :
    ∀ fuel i buffers grid,
      (sliceLoop M sampleRate channels N spp fftSize fuel i buffers grid).1
        = buffers := by
  intro fuel
  induction fuel with
  | zero => intro i buffers grid; rfl
  | succ fuel ih =>
    intro i buffers grid
    simp only [sliceLoop]
    split
    · split
      · rfl
      · rw [extractSlices_spec]
        simp only
        split
        · rfl
        · rw [ih]
    · rfl

/-- Slice `i` contains at least one sample:
`startSample < endSample = min(startSample + spp, totalSamples)`. -/
def sliceNonempty (spp total i : Nat) : Prop := i * spp < min (i * spp + spp) total

instance (spp total i : Nat) : Decidable (sliceNonempty spp total i) := by
  unfold sliceNonempty; infer_instance

theorem sliceLoop_length (M : JSMath) (sampleRate : ℚ)
    (channels N spp fftSize : Nat)
    (hpow : Nat.land fftSize (fftSize - 1) = 0) (h2 : 2 ∣ fftSize) :
    ∀ fuel i buffers grid, N ≤ i + fuel →
      ∃ k,
        (sliceLoop M sampleRate channels N spp fftSize fuel i buffers grid).2.1.length
            = grid.length + k
        ∧ k ≤ N - i
        ∧ (∀ t, t < k → sliceNonempty spp (buffers.headD []).length (i + t))
        ∧ (i + k < N → ¬ sliceNonempty spp (buffers.headD []).length (i + k)) := by
  intro fuel
  induction fuel with
  | zero =>
    intro i buffers grid hfuel
    refine ⟨0, rfl, by omega, by omega, ?_⟩
    intro h
    omega
  | succ fuel ih =>
    intro i buffers grid hfuel
    simp only [sliceLoop]
    split
    · rename_i hiN
      split
      · rename_i hbreak
        refine ⟨0, by simp, by omega, by omega, ?_⟩
        intro _
        unfold sliceNonempty
        simp only [Nat.add_zero]
        omega
      · rename_i hcont
        rw [extractSlices_spec]
        simp only
        rw [analyzeAudioSlice_ok_of_pow2 M _ sampleRate fftSize hpow h2]
        simp only
        obtain ⟨k, hk1, hk2, hk3, hk4⟩ :=
          ih (i + 1) buffers (grid ++ [frameValue M
            ((List.range channels).map
              (fun c => ((buffers.getD c []).drop (i * spp)).take
                (min (i * spp + spp) (buffers.headD []).length - i * spp))) fftSize])
            (by omega)
        refine ⟨k + 1, ?_, by omega, ?_, ?_⟩
        · rw [hk1]
          simp
          omega
        · intro t ht
          cases t with
          | zero =>
            have hne : i * spp < min (i * spp + spp) (buffers.headD []).length := by
              omega
            simpa [sliceNonempty] using hne
          | succ t' =>
            have := hk3 t' (by omega)
            have heq : i + 1 + t' = i + (t' + 1) := by omega
            rwa [heq] at this
        · intro hlt
          have := hk4 (by omega)
          have heq : i + 1 + k = i + (k + 1) := by omega
          rwa [heq] at this
    · rename_i hiN
      refine ⟨0, rfl, by omega, by omega, ?_⟩
      intro h
      omega

/-- The frame the worker computes for slice `idx` of the given buffers. -/
def frameAt (M : JSMath) (buffers : List (List ℚ)) (channels spp fftSize idx : Nat) :
    List ℚ :=
  frameValue M
    ((List.range channels).map
      (fun c => ((buffers.getD c []).drop (idx * spp)).take
        (min (idx * spp + spp) (buffers.headD []).length - idx * spp)))
    fftSize

/-- The progress-emission condition of `spectrumWorker.ts` line 207:
`sliceIndex % progressInterval === 0 || sliceIndex === numSlices - 1`,
with `progressInterval = max(1, floor(numSlices / 20))` (line 182). -/
def progressCond (N idx : Nat) : Bool :=
  decide (idx % (max 1 (N / 20)) = 0 ∨ idx = N - 1)

/-- The progress message posted after slice `idx` when the grid so far is
`partRes`: `progress = Math.round((sliceIndex+1)/numSlices*100)`,
`currentSlice = sliceIndex+1`, `totalSlices = numSlices`
(`spectrumWorker.ts` lines 204-215). -/
def progressAt (N idx : Nat) (partRes : List (List ℚ)) : SpectrumMsg :=
  SpectrumMsg.progress (jsRound (((idx : ℚ) + 1) / (N : ℚ) * 100)) (idx + 1) N partRes

theorem sliceLoop_run (M : JSMath) (sampleRate : ℚ) (channels N spp fftSize : Nat)
    (hpow : Nat.land fftSize (fftSize - 1) = 0) (h2 : 2 ∣ fftSize) :
    ∀ fuel i buffers grid, N ≤ i + fuel →
      (∀ t, t < N → sliceNonempty spp (buffers.headD []).length t) →
      sliceLoop M sampleRate channels N spp fftSize fuel i buffers grid
        = (buffers,
           grid ++ (List.range' i (N - i)).map (frameAt M buffers channels spp fftSize),
           (((List.range' i (N - i)).filter (progressCond N)).map
             (fun idx => progressAt N idx
               (grid ++ (List.range' i (idx - i + 1)).map
                 (frameAt M buffers channels spp fftSize))))
           ++ [SpectrumMsg.result
               (grid ++ (List.range' i (N - i)).map
                 (frameAt M buffers channels spp fftSize))]) := by
  intro fuel
  induction fuel with
  | zero =>
    intro i buffers grid hfuel hall
    have h0 : N - i = 0 := by omega
    simp [sliceLoop, h0]
  | succ fuel ih =>
    intro i buffers grid hfuel hall
    simp only [sliceLoop]
    split
    · rename_i hiN
      have hne := hall i hiN
      unfold sliceNonempty at hne
      split
      · rename_i hbreak
        omega
      · rename_i hcont
        rw [extractSlices_spec]
        simp only
        rw [analyzeAudioSlice_ok_of_pow2 M _ sampleRate fftSize hpow h2]
        simp only
        have hfold : frameValue M
            ((List.range channels).map
              (fun c => ((buffers.getD c []).drop (i * spp)).take
                (min (i * spp + spp) (buffers.headD []).length - i * spp))) fftSize
            = frameAt M buffers channels spp fftSize i := rfl
        rw [hfold]
        rw [ih (i + 1) buffers
          (grid ++ [frameAt M buffers channels spp fftSize i]) (by omega) hall]
        simp only
        have hsub : N - i = (N - (i + 1)) + 1 := by omega
        rw [hsub, List.range'_succ]
        refine Prod.ext rfl (Prod.ext ?_ ?_)
        · show grid ++ [frameAt M buffers channels spp fftSize i]
              ++ (List.range' (i+1) (N - (i+1))).map (frameAt M buffers channels spp fftSize)
            = grid ++ (i :: List.range' (i+1) (N - (i+1))).map
                (frameAt M buffers channels spp fftSize)
          simp
        · show (if i % (max 1 (N / 20)) = 0 ∨ i = N - 1 then
                [progressAt N i (grid ++ [frameAt M buffers channels spp fftSize i])]
              else [])
              ++ ((((List.range' (i+1) (N - (i+1))).filter (progressCond N)).map
                (fun idx => progressAt N idx
                  ((grid ++ [frameAt M buffers channels spp fftSize i])
                    ++ (List.range' (i+1) (idx - (i+1) + 1)).map
                      (frameAt M buffers channels spp fftSize))))
              ++ [SpectrumMsg.result
                  ((grid ++ [frameAt M buffers channels spp fftSize i])
                    ++ (List.range' (i+1) (N - (i+1))).map
                      (frameAt M buffers channels spp fftSize))])
            = _
          have hmap :
              ((List.range' (i+1) (N - (i+1))).filter (progressCond N)).map
                (fun idx => progressAt N idx
                  ((grid ++ [frameAt M buffers channels spp fftSize i])
                    ++ (List.range' (i+1) (idx - (i+1) + 1)).map
                      (frameAt M buffers channels spp fftSize)))
              = ((List.range' (i+1) (N - (i+1))).filter (progressCond N)).map
                (fun idx => progressAt N idx
                  (grid ++ (List.range' i (idx - i + 1)).map
                    (frameAt M buffers channels spp fftSize))) := by
            apply List.map_congr_left
            intro idx hidx
            have hmem : i + 1 ≤ idx := by
              have := List.mem_range'_1.mp (List.mem_of_mem_filter hidx)
              omega
            have hidx2 : idx - i + 1 = (idx - (i + 1) + 1) + 1 := by omega
            rw [hidx2]
            simp [List.range'_succ]
          rw [hmap]
          by_cases hcnd : i % (max 1 (N / 20)) = 0 ∨ i = N - 1
          · rw [if_pos hcnd]
            have hfc : (i :: List.range' (i+1) (N - (i+1))).filter (progressCond N)
                = i :: (List.range' (i+1) (N - (i+1))).filter (progressCond N) := by
              simp [List.filter_cons, progressCond, hcnd]
            rw [hfc]
            simp only [List.map_cons]
            have hone : List.range' i (i - i + 1) = [i] := by
              have : i - i + 1 = 1 := by omega
              rw [this]
              simp [List.range'_succ]
            rw [hone]
            simp
          · rw [if_neg hcnd]
            have hfc : (i :: List.range' (i+1) (N - (i+1))).filter (progressCond N)
                = (List.range' (i+1) (N - (i+1))).filter (progressCond N) := by
              simp [List.filter_cons, progressCond, hcnd]
            rw [hfc]
            simp
    · rename_i hiN
      have h0 : N - i = 0 := by omega
      simp [h0]

theorem allZero_getD {l : List ℚ} (h : AllZero l) (i : Nat) : l.getD i 0 = 0 := by
  rcases Nat.lt_or_ge i l.length with hi | hi
  · rw [List.getD_eq_getElem l 0 hi]
    exact h _ (List.getElem_mem hi)
  · exact List.getD_eq_default l 0 hi

theorem allZero_set {l : List ℚ} (h : AllZero l) (i : Nat) : AllZero (l.set i 0) := by
  intro x hx
  rcases List.mem_or_eq_of_mem_set hx with hx2 | hx2
  · exact h x hx2
  · exact hx2

theorem allZero_replicate (n : Nat) : AllZero (List.replicate n (0 : ℚ)) := by
  intro x hx
  exact List.eq_of_mem_replicate hx

theorem allZero_listSwap {l : List ℚ} (h : AllZero l) (i j : Nat) :
    AllZero (listSwap l i j) := by
  simp only [listSwap, allZero_getD h]
  exact allZero_set (allZero_set h i) j

theorem foldl_preserve {α σ : Type} (P : σ → Prop) (f : σ → α → σ) (l : List α)
    (hstep : ∀ s a, P s → P (f s a)) : ∀ s, P s → P (l.foldl f s) := by
  induction l with
  | nil => intro s hs; exact hs
  | cons a t ih => intro s hs; exact ih _ (hstep s a hs)

theorem bitrevPass_allZero (n : Nat) {r im : List ℚ}
    (hr : AllZero r) (him : AllZero im) :
    AllZero (bitrevPass n r im).1 ∧ AllZero (bitrevPass n r im).2 := by
  unfold bitrevPass
  have hmain := foldl_preserve
    (fun (st : Nat × List ℚ × List ℚ) => AllZero st.2.1 ∧ AllZero st.2.2)
    (fun st i =>
      let j := st.1
      let r := st.2.1
      let im := st.2.2
      let r2 := if i < j then listSwap r i j else r
      let im2 := if i < j then listSwap im i j else im
      let kj := revWhile n (n / 2) j
      (kj.2 + kj.1, r2, im2))
    (List.range (n - 1))
    (by
      intro st i hst
      refine ⟨?_, ?_⟩ <;> simp only
      · split
        · exact allZero_listSwap hst.1 _ _
        · exact hst.1
      · split
        · exact allZero_listSwap hst.2 _ _
        · exact hst.2)
    (0, r, im) ⟨hr, him⟩
  exact hmain

theorem butterfly_allZero (M : JSMath) (m i j : Nat) {st : List ℚ × List ℚ}
    (h1 : AllZero st.1) (h2 : AllZero st.2) :
    AllZero (butterfly M m i j st).1 ∧ AllZero (butterfly M m i j st).2 := by
  simp only [butterfly, allZero_getD h1, allZero_getD h2, zero_mul, sub_zero,
    zero_sub, neg_zero, add_zero, zero_add, sub_self]
  exact ⟨allZero_set (allZero_set h1 _) _, allZero_set (allZero_set h2 _) _⟩

theorem butterflyStages_allZero (M : JSMath) (n : Nat) {r im : List ℚ}
    (hr : AllZero r) (him : AllZero im) :
    AllZero (butterflyStages M n r im).1 ∧ AllZero (butterflyStages M n r im).2 := by
  unfold butterflyStages
  refine foldl_preserve
    (fun (st : List ℚ × List ℚ) => AllZero st.1 ∧ AllZero st.2)
    _ _ ?_ (r, im) ⟨hr, him⟩
  intro st s hst
  refine foldl_preserve
    (fun (q : List ℚ × List ℚ) => AllZero q.1 ∧ AllZero q.2) _ _ ?_ st hst
  intro st2 iIdx hst2
  refine foldl_preserve
    (fun (q : List ℚ × List ℚ) => AllZero q.1 ∧ AllZero q.2) _ _ ?_ st2 hst2
  intro st3 j hst3
  exact butterfly_allZero M _ _ _ hst3.1 hst3.2

theorem performFFT_allZero (M : JSMath) (n : Nat) {r im : List ℚ}
    (hr : AllZero r) (him : AllZero im) :
    AllZero (performFFT M r im n).1 ∧ AllZero (performFFT M r im n).2 := by
  unfold performFFT
  have hb := bitrevPass_allZero n hr him
  exact butterflyStages_allZero M n hb.1 hb.2

theorem fftMagnitudes_allZero (M : JSMath) (hsq : M.sqrt 0 = 0)
    {signal : List ℚ} (h : AllZero signal) :
    AllZero (fftMagnitudes M signal) := by
  unfold fftMagnitudes
  intro x hx
  simp only [List.mem_map] at hx
  obtain ⟨i, _, rfl⟩ := hx
  have hp := performFFT_allZero M signal.length h (allZero_replicate signal.length)
  rw [allZero_getD hp.1, allZero_getD hp.2]
  simp [hsq]

theorem weightAndCompress_allZero (M : JSMath) {mags : List ℚ} (h : AllZero mags) :
    AllZero (weightAndCompress M mags) := by
  unfold weightAndCompress
  intro x hx
  simp only [List.map_map, List.mem_map] at hx
  obtain ⟨m, hm, rfl⟩ := hx
  have : m = 0 := h m hm
  simp [this]

theorem padToFFT_allZero {combined : List ℚ} (h : AllZero combined) (fftSize : Nat) :
    AllZero (padToFFT combined fftSize) := by
  unfold padToFFT
  intro x hx
  simp only [List.mem_map] at hx
  obtain ⟨i, _, rfl⟩ := hx
  split
  · exact allZero_getD h i
  · rfl

theorem applyHannWindow_allZero (M : JSMath) {signal : List ℚ} (h : AllZero signal) :
    AllZero (applyHannWindow M signal) := by
  unfold applyHannWindow
  intro x hx
  simp only [List.mem_map] at hx
  obtain ⟨i, _, rfl⟩ := hx
  rw [allZero_getD h]
  exact zero_mul _

theorem getD_replicate_q (n i : Nat) (a : ℚ) :
    (List.replicate n a).getD i 0 = if i < n then a else 0 := by
  rcases Nat.lt_or_ge i n with hi | hi
  · rw [if_pos hi, List.getD_eq_getElem _ 0 (by simpa using hi)]
    simp
  · rw [if_neg (by omega), List.getD_eq_default _ 0 (by simpa using hi)]

/-- Opposite-sign stereo channels of equal length cancel exactly in the
sample-wise average downmix. -/
theorem combineChannels_cancel (n : Nat) :
    combineChannels [List.replicate n 1, List.replicate n (-1)]
      = List.replicate n (0 : ℚ) := by
  unfold combineChannels
  simp only [List.length_cons, List.length_nil, List.headD_cons, List.length_replicate]
  rw [if_pos (by omega)]
  have hcongr : ∀ i ∈ List.range n,
      ((([List.replicate n (1 : ℚ), List.replicate n (-1)]).map
        (fun ch => ch.getD i 0)).sum) / ((2 : Nat) : ℚ) = 0 := by
    intro i hi
    have hi2 : i < n := List.mem_range.mp hi
    simp [getD_replicate_q, hi2]
  rw [List.map_congr_left hcongr]
  simp [List.map_const]

theorem allZero_frameValue_stereo (M : JSMath) (hsq : M.sqrt 0 = 0)
    (a fftSize : Nat) :
    AllZero (frameValue M [List.replicate a 1, List.replicate a (-1)] fftSize) := by
  unfold frameValue
  refine weightAndCompress_allZero M (fftMagnitudes_allZero M hsq
    (applyHannWindow_allZero M (padToFFT_allZero ?_ fftSize)))
  rw [combineChannels_cancel]
  exact allZero_replicate a

theorem sliceLoop_grid_all (M : JSMath) (sampleRate : ℚ)
    (channels N spp fftSize : Nat) (buffers : List (List ℚ))
    (P : List ℚ → Prop)
    (hframe : ∀ s t fr, analyzeAudioSlice M
        ((List.range channels).map (fun c => ((buffers.getD c []).drop s).take t))
        sampleRate fftSize = .ok fr → P fr) :
    ∀ fuel i grid, (∀ f ∈ grid, P f) →
      ∀ f ∈ (sliceLoop M sampleRate channels N spp fftSize fuel i buffers grid).2.1,
        P f := by
  intro fuel
  induction fuel with
  | zero => intro i grid hgrid; exact hgrid
  | succ fuel ih =>
    intro i grid hgrid
    simp only [sliceLoop]
    split
    · split
      · exact hgrid
      · rw [extractSlices_spec]
        simp only
        cases hok : analyzeAudioSlice M
            ((List.range channels).map
              (fun c => ((buffers.getD c []).drop (i * spp)).take
                (min (i * spp + spp) (buffers.headD []).length - i * spp)))
            sampleRate fftSize with
        | error e => exact hgrid
        | ok fr =>
          refine ih (i + 1) (grid ++ [fr]) ?_
          intro f hf
          rcases List.mem_append.mp hf with hf2 | hf2
          · exact hgrid f hf2
          · rw [List.mem_singleton.mp hf2]
            exact hframe _ _ fr hok
    · exact hgrid

/-- `currentSlice` of a progress message (the number of slices processed when
it was posted); `0` for other messages. -/
def processedSlicesOf : SpectrumMsg → Nat
  | .progress _ cs _ _ => cs
  | _ => 0

/-- `progress` (percentage complete) of a progress message; `0` otherwise. -/
def percentOf : SpectrumMsg → ℤ
  | .progress p _ _ _ => p
  | _ => 0

/-- The channel-buffer store as `analyzeSpectrum` leaves it. -/
def spectrumBuffers (M : JSMath) (audioData : List (List ℚ))
    (sampleRate duration timeSlice : ℚ) (channels : Nat) : List (List ℚ) :=
  (analyzeSpectrum M audioData sampleRate duration timeSlice channels).1

/-- The spectrogram grid (`spectrumData`) built by `analyzeSpectrum`. -/
def spectrumGrid (M : JSMath) (audioData : List (List ℚ))
    (sampleRate duration timeSlice : ℚ) (channels : Nat) : List (List ℚ) :=
  (analyzeSpectrum M audioData sampleRate duration timeSlice channels).2.1

/-- The messages posted by `analyzeSpectrum`. -/
def spectrumMessages (M : JSMath) (audioData : List (List ℚ))
    (sampleRate duration timeSlice : ℚ) (channels : Nat) : List SpectrumMsg :=
  (analyzeSpectrum M audioData sampleRate duration timeSlice channels).2.2

/-- C8: a stereo input whose left channel is all `+1.0` and right channel all
`-1.0` downmixes to the all-zero mono signal, and every frame of the
resulting spectrogram grid is all-zero after windowing, FFT, gain and
logarithmic compression. -/
theorem analyzeSpectrum_stereo_cancel (M : JSMath) (hsq : M.sqrt 0 = 0)
    (len : Nat) (sampleRate duration timeSlice : ℚ) :
    combineChannels [List.replicate len 1, List.replicate len (-1)]
        = List.replicate len (0 : ℚ)
    ∧ ∀ frame ∈ spectrumGrid M [List.replicate len 1, List.replicate len (-1)]
        sampleRate duration timeSlice 2, AllZero frame := by
  refine ⟨combineChannels_cancel len, ?_⟩
  unfold spectrumGrid analyzeSpectrum
  refine sliceLoop_grid_all M sampleRate 2 _ _ 4096
    [List.replicate len 1, List.replicate len (-1)] AllZero ?_ _ 0 []
    (by intro f hf; cases hf)
  intro s t fr hok
  have hshape : (List.range 2).map
      (fun c => ((([List.replicate len (1:ℚ), List.replicate len (-1)]).getD c []).drop s).take t)
      = [List.replicate (min t (len - s)) 1, List.replicate (min t (len - s)) (-1)] := by
    simp [List.range_succ, List.drop_replicate, List.take_replicate]
  rw [hshape, analyzeAudioSlice_ok_of_pow2 M _ sampleRate 4096 (by decide) (by decide)] at hok
  cases hok
  exact allZero_frameValue_stereo M hsq _ 4096

/-- C9: the analysis never mutates the caller's channel buffers.  Every
operation the worker applies to `audioData` is threaded through the
embedding (`Array.prototype.slice` reads and returns the buffer unchanged,
`applyHannWindow` builds a fresh array, and the FFT writes only to the local
`real`/`imag` copies created in `computeFFT`), and the store that
`analyzeSpectrum` hands back is exactly the input store. -/
theorem analyzeSpectrum_preserves_buffers (M : JSMath) (audioData : List (List ℚ))
    (sampleRate duration timeSlice : ℚ) (channels : Nat) :
    spectrumBuffers M audioData sampleRate duration timeSlice channels = audioData := by
  unfold spectrumBuffers analyzeSpectrum
  exact sliceLoop_buffers M sampleRate channels _ _ 4096 _ 0 audioData []

/-- C5: on a buffer analysed with `numSlices = ceil(duration/timeSlice)`
slices of `samplesPerSlice = floor(sampleRate*timeSlice)` samples, the grid
has exactly `numSlices` frames when every slice contains samples; it is
shorter only by stopping at the first slice that would contain no samples,
every frame delivered coming from a nonempty slice. -/
theorem analyzeSpectrum_grid_length (M : JSMath) (audioData : List (List ℚ))
    (sampleRate duration timeSlice : ℚ) (channels : Nat) :
    (spectrumGrid M audioData sampleRate duration timeSlice channels).length
        ≤ numSlicesOf duration timeSlice
    ∧ (∀ t, t < (spectrumGrid M audioData sampleRate duration timeSlice channels).length →
        sliceNonempty (samplesPerSliceOf sampleRate timeSlice)
          (audioData.headD []).length t)
    ∧ ((spectrumGrid M audioData sampleRate duration timeSlice channels).length
          < numSlicesOf duration timeSlice →
        ¬ sliceNonempty (samplesPerSliceOf sampleRate timeSlice)
          (audioData.headD []).length
          (spectrumGrid M audioData sampleRate duration timeSlice channels).length)
    ∧ ((∀ i, i < numSlicesOf duration timeSlice →
          sliceNonempty (samplesPerSliceOf sampleRate timeSlice)
            (audioData.headD []).length i) →
        (spectrumGrid M audioData sampleRate duration timeSlice channels).length
          = numSlicesOf duration timeSlice) := by
  obtain ⟨k, hk1, hk2, hk3, hk4⟩ :=
    sliceLoop_length M sampleRate channels (numSlicesOf duration timeSlice)
      (samplesPerSliceOf sampleRate timeSlice) 4096 (by decide) (by decide)
      (numSlicesOf duration timeSlice) 0 audioData [] (by omega)
  have hg : (spectrumGrid M audioData sampleRate duration timeSlice channels).length = k := by
    unfold spectrumGrid analyzeSpectrum
    simpa using hk1
  rw [hg]
  simp only [Nat.zero_add] at hk3 hk4
  refine ⟨by omega, hk3, hk4, ?_⟩
  intro hall
  rcases Nat.lt_or_ge k (numSlicesOf duration timeSlice) with hlt | hge
  · exact absurd (hall k hlt) (hk4 hlt)
  · omega

theorem analyzeSpectrum_run (M : JSMath) (audioData : List (List ℚ))
    (sampleRate duration timeSlice : ℚ) (channels : Nat)
    (hall : ∀ t, t < numSlicesOf duration timeSlice →
      sliceNonempty (samplesPerSliceOf sampleRate timeSlice)
        (audioData.headD []).length t) :
    analyzeSpectrum M audioData sampleRate duration timeSlice channels
      = (audioData,
         (List.range (numSlicesOf duration timeSlice)).map
           (frameAt M audioData channels (samplesPerSliceOf sampleRate timeSlice) 4096),
         (((List.range (numSlicesOf duration timeSlice)).filter
             (progressCond (numSlicesOf duration timeSlice))).map
           (fun idx => progressAt (numSlicesOf duration timeSlice) idx
             ((List.range (idx + 1)).map
               (frameAt M audioData channels (samplesPerSliceOf sampleRate timeSlice) 4096))))
         ++ [SpectrumMsg.result ((List.range (numSlicesOf duration timeSlice)).map
             (frameAt M audioData channels (samplesPerSliceOf sampleRate timeSlice) 4096))]) := by
  unfold analyzeSpectrum
  rw [sliceLoop_run M sampleRate channels _ _ 4096 (by decide) (by decide)
    _ 0 audioData [] (by omega) hall]
  simp [List.range_eq_range']

/-- C6: when all `N = numSlices` slices contain samples, the message stream
is the ordered progress messages for exactly the slice indices `i` with
`i % progressInterval == 0` or `i == N-1` (carrying the frames built so
far), followed by the single terminal `result`; the first progress message
has `currentSlice = 1`, the last has `currentSlice = N` and
`progress = 100`, and `currentSlice` is strictly increasing along the
stream. -/
theorem analyzeSpectrum_progress_protocol (M : JSMath) (audioData : List (List ℚ))
    (sampleRate duration timeSlice : ℚ) (channels : Nat)
    (hN : 0 < numSlicesOf duration timeSlice)
    (hall : ∀ t, t < numSlicesOf duration timeSlice →
      sliceNonempty (samplesPerSliceOf sampleRate timeSlice)
        (audioData.headD []).length t) :
    ∃ pl,
      spectrumMessages M audioData sampleRate duration timeSlice channels
          = pl ++ [SpectrumMsg.result
              (spectrumGrid M audioData sampleRate duration timeSlice channels)]
      ∧ pl = ((List.range (numSlicesOf duration timeSlice)).filter
            (progressCond (numSlicesOf duration timeSlice))).map
          (fun idx => progressAt (numSlicesOf duration timeSlice) idx
            ((List.range (idx + 1)).map
              (frameAt M audioData channels
                (samplesPerSliceOf sampleRate timeSlice) 4096)))
      ∧ pl.head?.map processedSlicesOf = some 1
      ∧ pl.getLast?.map processedSlicesOf = some (numSlicesOf duration timeSlice)
      ∧ pl.getLast?.map percentOf = some 100
      ∧ (pl.map processedSlicesOf).Pairwise (· < ·) := by
  have hrun := analyzeSpectrum_run M audioData sampleRate duration timeSlice channels hall
  obtain ⟨K, hK⟩ : ∃ K, numSlicesOf duration timeSlice = K + 1 :=
    ⟨numSlicesOf duration timeSlice - 1, by omega⟩
  refine ⟨_, ?_, rfl, ?_, ?_, ?_, ?_⟩
  · unfold spectrumMessages spectrumGrid
    rw [hrun]
  · rw [hK, List.range_succ_eq_map]
    have hc0 : progressCond (K + 1) 0 = true := by
      simp [progressCond]
    rw [List.filter_cons_of_pos hc0]
    simp [progressAt, processedSlicesOf]
  · rw [hK, List.range_succ, List.filter_append, List.map_append]
    have hcK : progressCond (K + 1) K = true := by
      simp [progressCond]
    rw [List.filter_cons_of_pos hcK]
    simp only [List.filter_nil, List.map_cons, List.map_nil]
    rw [List.getLast?_concat]
    simp [progressAt, processedSlicesOf]
  · rw [hK, List.range_succ, List.filter_append, List.map_append]
    have hcK : progressCond (K + 1) K = true := by
      simp [progressCond]
    rw [List.filter_cons_of_pos hcK]
    simp only [List.filter_nil, List.map_cons, List.map_nil]
    rw [List.getLast?_concat]
    simp only [Option.map_some, progressAt, percentOf]
    have hr : ((K : ℚ) + 1) / ((K + 1 : ℕ) : ℚ) * 100 = 100 := by
      push_cast
      have : ((K : ℚ) + 1) ≠ 0 := by positivity
      field_simp
    rw [hr]
    norm_num [jsRound, percentOf]
  · rw [List.map_map]
    have hcomp : processedSlicesOf ∘ (fun idx => progressAt (numSlicesOf duration timeSlice) idx
        ((List.range (idx + 1)).map
          (frameAt M audioData channels (samplesPerSliceOf sampleRate timeSlice) 4096)))
        = fun idx => idx + 1 := by
      funext idx
      rfl
    rw [hcomp]
    refine List.pairwise_map.mpr ?_
    have hp : ((List.range (numSlicesOf duration timeSlice)).filter
        (progressCond (numSlicesOf duration timeSlice))).Pairwise (· < ·) :=
      List.Pairwise.sublist (List.filter_sublist _) (List.pairwise_lt_range _)
    exact hp.imp (by omega)

/-! ### Render worker (spectrum drawing), message-level model -/

/-- Messages received by the spectrum render worker (part_000 lines 17-34).
Only the `spectrumData` field of a draw request influences which message is
posted back; the geometry fields (width, height, dpr, duration, padding,
freqLabels) feed the pixel operations, which are not modelled. -/
inductive RenderMsgIn where
  | canvas
  | draw (spectrumData : List (List ℚ))
  deriving DecidableEq

/-- Messages posted by the spectrum render worker (part_000 lines 50, 55-58,
201, 277). -/
inductive RenderMsgOut where
  | canvasReady
  | drawComplete
  | error (msg : String)
  deriving DecidableEq

/-- Message-level behaviour of `drawSpectrum(data)` (part_000 lines 136-278).
Line 137 returns silently when `!ctx || !offscreenCanvas ||
!data.spectrumData.length`; the empty-grid acknowledgment at lines 200-203
sits below that guard and is therefore unreachable; the full draw path posts
`drawComplete` (line 277).  Canvas pixel operations are not modelled — only
the messages posted back to the main thread. -/
def drawSpectrumMsgs (hasCanvas : Bool) (spectrumData : List (List ℚ)) :
    List RenderMsgOut :=
  if ¬hasCanvas ∨ spectrumData.length = 0 then []
  else if spectrumData.length = 0 then [RenderMsgOut.drawComplete]
  else [RenderMsgOut.drawComplete]

/-- `self.onmessage` of the spectrum render worker (part_000 lines 41-65):
a state machine over whether the canvas has been transferred (the
`getContext` call is assumed to succeed; its failure would only make the
no-canvas error branch fire on draw as well). -/
def renderOnMessage (hasCanvas : Bool) :
    RenderMsgIn → Bool × List RenderMsgOut
  | .canvas => (true, [RenderMsgOut.canvasReady])
  | .draw spectrumData =>
    if hasCanvas then (hasCanvas, drawSpectrumMsgs hasCanvas spectrumData)
    else (hasCanvas,
      [RenderMsgOut.error "No canvas available. Please transfer a canvas first."])

/-- Run the render worker from a given state over a list of incoming
messages, collecting everything it posts. -/
def renderRun : Bool → List RenderMsgIn → List RenderMsgOut
  | _, [] => []
  | st, m :: rest =>
    let r := renderOnMessage st m
    r.2 ++ renderRun r.1 rest

/-- C2 (code bug): after the canvas transfer is acknowledged, a draw request
with an empty grid produces no acknowledgment at all — `drawSpectrum`'s
guard at part_000 line 137 returns before the (unreachable) empty-grid
`drawComplete` at lines 200-203 — while a draw request with a nonempty grid
produces exactly one `drawComplete`. -/
theorem renderRun_empty_draw_silent :
    renderRun false [RenderMsgIn.canvas, RenderMsgIn.draw []]
        = [RenderMsgOut.canvasReady]
    ∧ renderRun false [RenderMsgIn.canvas, RenderMsgIn.draw [[1]]]
        = [RenderMsgOut.canvasReady, RenderMsgOut.drawComplete] := by
  constructor <;> rfl

/-! ### Colour and alpha mapping of the render worker -/

/-- `getSignalColor(magnitude)` (part_000 lines 82-126), as the rounded rgb
triple (the `rgb(r, g, b)` string packaging is not modelled).  The five
stops are deep purple (59,7,100), purple (126,34,206), pink (219,39,119),
red (225,29,72), orange (249,115,22); `normalizedMagnitude =
min(1, magnitude/0.3)`.  In the pink→red branch the source computes
`b = Math.round(colors.medium.b + t * (colors.medium.b - colors.medium.b))`
(line 116), so the blue component stays at 119 across that segment. -/
def getSignalColor (magnitude : ℚ) : ℤ × ℤ × ℤ :=
  let normalizedMagnitude := min 1 (magnitude / (3/10))
  if normalizedMagnitude < 1/4 then
    let t := normalizedMagnitude / (1/4)
    (jsRound (59 + t * (126 - 59)), jsRound (7 + t * (34 - 7)),
     jsRound (100 + t * (206 - 100)))
  else if normalizedMagnitude < 1/2 then
    let t := (normalizedMagnitude - 1/4) / (1/4)
    (jsRound (126 + t * (219 - 126)), jsRound (34 + t * (39 - 34)),
     jsRound (206 + t * (119 - 206)))
  else if normalizedMagnitude < 3/4 then
    let t := (normalizedMagnitude - 1/2) / (1/4)
    (jsRound (219 + t * (225 - 219)), jsRound (39 + t * (29 - 39)),
     jsRound (119 + t * ((119 : ℚ) - 119)))
  else
    let t := (normalizedMagnitude - 3/4) / (1/4)
    (jsRound (225 + t * (249 - 225)), jsRound (29 + t * (115 - 29)),
     jsRound (72 + t * (22 - 72)))

/-- Modelled from the spec: `magnitudeToColor` as piecewise-linear
interpolation of all three rgb components between the five stops at
normalized thresholds 0, .25, .5, .75, 1 — in particular blue interpolates
from 119 to 72 on the pink→red segment. -/
def magnitudeToColorSpec (magnitude : ℚ) : ℤ × ℤ × ℤ :=
  let normalizedMagnitude := min 1 (magnitude / (3/10))
  if normalizedMagnitude < 1/4 then
    let t := normalizedMagnitude / (1/4)
    (jsRound (59 + t * (126 - 59)), jsRound (7 + t * (34 - 7)),
     jsRound (100 + t * (206 - 100)))
  else if normalizedMagnitude < 1/2 then
    let t := (normalizedMagnitude - 1/4) / (1/4)
    (jsRound (126 + t * (219 - 126)), jsRound (34 + t * (39 - 34)),
     jsRound (206 + t * (119 - 206)))
  else if normalizedMagnitude < 3/4 then
    let t := (normalizedMagnitude - 1/2) / (1/4)
    (jsRound (219 + t * (225 - 219)), jsRound (39 + t * (29 - 39)),
     jsRound (119 + t * ((72 : ℚ) - 119)))
  else
    let t := (normalizedMagnitude - 3/4) / (1/4)
    (jsRound (225 + t * (249 - 225)), jsRound (29 + t * (115 - 29)),
     jsRound (72 + t * (22 - 72)))

/-- C4 (code bug): at magnitude `3/16` (normalized 0.625, the midpoint of
the pink→red segment) the code returns blue 119 while the spec's
interpolation of blue from 119 to 72 gives 96; red and green agree. -/
theorem getSignalColor_blue_not_interpolated :
    getSignalColor (3/16) = (222, 34, 119)
    ∧ magnitudeToColorSpec (3/16) = (222, 34, 96)
    ∧ getSignalColor (3/16) ≠ magnitudeToColorSpec (3/16) := by
  have h1 : getSignalColor (3/16) = (222, 34, 119) := by
    norm_num [getSignalColor, jsRound, min_def]
  have h2 : magnitudeToColorSpec (3/16) = (222, 34, 96) := by
    norm_num [magnitudeToColorSpec, jsRound, min_def]
  refine ⟨h1, h2, ?_⟩
  rw [h1, h2]
  decide

/-- The alpha computation of `drawSpectrum` (part_000 line 265):
`alpha = 0.05 + Math.min(0.95, magnitude * 3.5)`. -/
def alphaOfMagnitude (magnitude : ℚ) : ℚ :=
  1/20 + min (19/20) (magnitude * (7/2))

/-- Modelled from the spec: `magnitudeToAlpha(magnitude) =
clamp(0.05 + magnitude*3.5, 0.05, 1.0)`. -/
def magnitudeToAlphaSpec (magnitude : ℚ) : ℚ :=
  max (1/20) (min 1 (1/20 + magnitude * (7/2)))

/-- C7: for every magnitude `m ≥ 0` the code's
`0.05 + min(0.95, m*3.5)` equals the spec's `clamp(0.05 + m*3.5, 0.05, 1.0)`. -/
theorem alphaOfMagnitude_eq_clamp (m : ℚ) (hm : 0 ≤ m) :
    alphaOfMagnitude m = magnitudeToAlphaSpec m := by
  unfold alphaOfMagnitude magnitudeToAlphaSpec
  have hy : 0 ≤ m * (7/2) := by positivity
  have h1 : (1:ℚ)/20 + min (19/20) (m * (7/2)) = min 1 (1/20 + m * (7/2)) := by
    rw [← min_add_add_left]
    norm_num
  rw [h1, max_eq_right]
  exact le_min (by norm_num) (by linarith)

theorem alphaOfMagnitude_eq_clamp_witness :
    (0 : ℚ) ≤ 1/10 ∧ alphaOfMagnitude (1/10) = magnitudeToAlphaSpec (1/10) :=
  ⟨by norm_num, alphaOfMagnitude_eq_clamp (1/10) (by norm_num)⟩

/-! ### FFT size guard (C10) and the per-slice catch (C1) -/

/-- C10: `computeFFT` raises the size error exactly for input lengths `n`
with `n & (n-1) ≠ 0`; on the zero-length input (where JS computes
`0 & -1 = 0`) it raises nothing and returns the empty magnitude list. -/
theorem computeFFT_size_error_iff (M : JSMath) :
    (∀ signal : List ℚ,
      computeFFT M signal = .error "FFT size must be a power of 2"
        ↔ Nat.land signal.length (signal.length - 1) ≠ 0)
    ∧ computeFFT M [] = .ok [] := by
  constructor
  · intro signal
    unfold computeFFT
    constructor
    · intro h
      by_contra hg
      rw [if_neg (by simpa using hg)] at h
      split at h <;> simp_all
    · intro hg
      rw [if_pos hg]
  · show computeFFT M [] = .ok []
    unfold computeFFT fftMagnitudes
    simp [show Nat.land 0 (0 - 1) = 0 from rfl]

instance {e a : Type} [DecidableEq e] [DecidableEq a] : DecidableEq (Except e a) :=
  fun x y =>
    match x, y with
    | .error u, .error v => decidable_of_iff (u = v) (by simp)
    | .error _, .ok _ => isFalse (fun h => Except.noConfusion h)
    | .ok _, .error _ => isFalse (fun h => Except.noConfusion h)
    | .ok u, .ok v => decidable_of_iff (u = v) (by simp)

/-- A concrete interpretation of the abstract numeric library functions,
used only to instantiate witnesses. -/
def probeJSMath : JSMath :=
  { pi := 0, cos := fun _ => 0, sin := fun _ => 0,
    sqrt := fun x => x, log10 := fun x => x }

/-- A second concrete interpretation (everything zero), satisfying
`∀ x, 0 ≤ sqrt x` and `log10 1 = 0`; used only to instantiate witnesses. -/
def zeroJSMath : JSMath :=
  { pi := 0, cos := fun _ => 0, sin := fun _ => 0,
    sqrt := fun _ => 0, log10 := fun _ => 0 }

theorem computeFFT_size_error_iff_witness :
    (computeFFT probeJSMath [1, 1, 1] = .error "FFT size must be a power of 2"
      ↔ Nat.land 3 2 ≠ 0)
    ∧ computeFFT probeJSMath [] = .ok [] :=
  ⟨(computeFFT_size_error_iff probeJSMath).1 [1, 1, 1],
   (computeFFT_size_error_iff probeJSMath).2⟩

/-- C1 (amended): a violation of the FFT power-of-two precondition inside a
slice analysis is caught by `analyzeAudioSlice`'s per-slice `try/catch` like
any other slice failure and replaced by the zero frame
`new Array(fftSize/2).fill(0)` (for even `fftSize`; for odd `fftSize` the
catch expression itself throws a `RangeError`); it does not propagate. -/
theorem analyzeAudioSlice_pow2_violation_zero_frame (M : JSMath)
    (channelData : List (List ℚ)) (sampleRate : ℚ) (fftSize : Nat)
    (hpow : Nat.land fftSize (fftSize - 1) ≠ 0) (h2 : 2 ∣ fftSize) :
    analyzeAudioSlice M channelData sampleRate fftSize
      = .ok (List.replicate (fftSize / 2) 0) := by
  have hlen : (applyHannWindow M (padToFFT (combineChannels channelData) fftSize)).length
      = fftSize := by
    rw [applyHannWindow_length, padToFFT_length]
  unfold analyzeAudioSlice computeFFT
  rw [hlen, if_pos hpow]
  simp only
  rw [if_pos h2]

theorem analyzeAudioSlice_pow2_violation_zero_frame_witness :
    analyzeAudioSlice probeJSMath [[1]] 44100 6 = .ok (List.replicate 3 0) :=
  analyzeAudioSlice_pow2_violation_zero_frame probeJSMath [[1]] 44100 6
    (by decide) (by decide)

/-- C1 counterexample: at `fftSize = 6` the precondition is violated
(`6 & 5 = 4 ≠ 0`), yet `analyzeAudioSlice` returns the zero frame instead of
propagating the `InvalidInputSize` failure. -/
theorem analyzeAudioSlice_pow2_violation_not_fatal :
    Nat.land 6 5 ≠ 0
    ∧ analyzeAudioSlice probeJSMath [[1/2]] 44100 6 = .ok [0, 0, 0] := by
  refine ⟨by decide, by decide⟩

/-! ### Normalization strategy (C3) -/

/-- Modelled from the spec (§4.2): the peak of quartile band `b` of a
magnitude list (bands of `ceil(len/4)` bins). -/
def bandPeak (vals : List ℚ) (bandSize b : Nat) : ℚ :=
  let s := b * bandSize
  let e := min (s + bandSize) vals.length
  (List.range (e - s)).foldl
    (fun acc j => let v := vals.getD (s + j) 0; if acc < v then v else acc) 0

/-- Modelled from the spec (§4.2): the strategy-parameterised slice
analysis the spec requires — "apply a uniform gain constant (reference
2.0), then logarithmic compression `out(i) = log10(1 + magnitude(i)*k)`
with compression constant k (reference 25).  An alternate strategy —
per-quartile-band peak normalization before compression — must also be
supported behind an explicit mode flag; default is the non-normalized
absolute-log strategy."  The front end (zero-pad, Hann window, FFT) is the
kernel shared with the code. -/
def analyzeAudioSliceFlagged (M : JSMath) (bandNormalize : Bool)
    (channelData : List (List ℚ)) (fftSize : Nat) : List ℚ :=
  let mags := fftMagnitudes M
    (applyHannWindow M (padToFFT (combineChannels channelData) fftSize))
  let gained := mags.map (fun m => m * 2)
  if bandNormalize then
    let bandSize := (gained.length + 3) / 4
    let normalized := (List.range gained.length).map
      (fun i => gained.getD i 0 / bandPeak gained bandSize (i / bandSize))
    normalized.map (fun m => M.log10 (1 + m * 25))
  else
    gained.map (fun m => M.log10 (1 + m * 25))

/-- C3 (amended): the deployed `analyzeAudioSlice` takes no mode flag and on
every input computes exactly the spec's default non-normalized absolute
log-compressed strategy (the flagged analyzer with the flag unset), given
that `sqrt` is nonnegative and `log10 1 = 0`. -/
theorem analyzeAudioSlice_defaults_to_absolute_log (M : JSMath)
    (hsq : ∀ x, 0 ≤ M.sqrt x) (hl : M.log10 1 = 0)
    (channelData : List (List ℚ)) (sampleRate : ℚ) (fftSize : Nat)
    (hpow : Nat.land fftSize (fftSize - 1) = 0) (h2 : 2 ∣ fftSize) :
    analyzeAudioSlice M channelData sampleRate fftSize
      = .ok (analyzeAudioSliceFlagged M false channelData fftSize) := by
  rw [analyzeAudioSlice_ok_of_pow2 M channelData sampleRate fftSize hpow h2]
  unfold frameValue weightAndCompress analyzeAudioSliceFlagged
  simp only [Bool.false_eq_true, if_false]
  congr 1
  apply List.map_congr_left
  intro m hm
  obtain ⟨m0, hm0, rfl⟩ := List.mem_map.mp hm
  have h0 : 0 ≤ m0 := by
    unfold fftMagnitudes at hm0
    simp only [List.mem_map] at hm0
    obtain ⟨i, _, rfl⟩ := hm0
    exact div_nonneg (hsq _) (by positivity)
  rcases eq_or_lt_of_le (by positivity : (0:ℚ) ≤ m0 * 2) with hz | hz
  · rw [if_neg (by rw [← hz]; exact lt_irrefl 0), ← hz]
    norm_num [hl]
  · rw [if_pos hz]

theorem analyzeAudioSlice_defaults_to_absolute_log_witness :
    analyzeAudioSlice zeroJSMath [[1]] 0 4
      = .ok (analyzeAudioSliceFlagged zeroJSMath false [[1]] 4) :=
  analyzeAudioSlice_defaults_to_absolute_log zeroJSMath
    (fun x => le_refl _) rfl [[1]] 0 4 (by decide) (by decide)

/-- C3 counterexample: the deployed analyzer's output on a concrete slice is
not the per-quartile-band peak-normalized output — no flag setting of the
code (there is none) produces the alternate strategy. -/
theorem analyzeAudioSlice_band_strategy_unavailable :
    analyzeAudioSlice probeJSMath [[1]] 44100 2
      ≠ .ok (analyzeAudioSliceFlagged probeJSMath true [[1]] 2) := by
  have hwin : applyHannWindow probeJSMath (padToFFT (combineChannels [[1]]) 2)
      = [1/2, 0] := by
    norm_num [combineChannels, padToFFT, applyHannWindow, probeJSMath, List.range_succ]
  have hmags : fftMagnitudes probeJSMath [1/2, 0] = [1/8] := by
    norm_num [fftMagnitudes, performFFT, bitrevPass, butterflyStages, butterfly,
      log2floor, log2floorAux, revWhile, listSwap, probeJSMath, List.range_succ]
  have h1 : analyzeAudioSlice probeJSMath [[1]] 44100 2 = .ok [29/4] := by
    rw [analyzeAudioSlice_ok_of_pow2 probeJSMath [[1]] 44100 2 (by decide) (by decide)]
    unfold frameValue
    rw [hwin, hmags]
    norm_num [weightAndCompress, probeJSMath]
  have h2 : analyzeAudioSliceFlagged probeJSMath true [[1]] 2 = [26] := by
    unfold analyzeAudioSliceFlagged
    rw [hwin, hmags]
    norm_num [bandPeak, probeJSMath, List.range_succ]
  rw [h1, h2]
  intro hcontra
  have : (29 : ℚ)/4 = 26 := by
    injection hcontra with hlist
    injection hlist
  norm_num at this

/-! ### Witness instantiations for the analyzer theorems -/

theorem analyzeSpectrum_grid_length_witness :
    (spectrumGrid probeJSMath [[1, 1]] 1 2 1 1).length ≤ numSlicesOf 2 1
    ∧ (∀ t, t < (spectrumGrid probeJSMath [[1, 1]] 1 2 1 1).length →
        sliceNonempty (samplesPerSliceOf 1 1) ([[(1:ℚ), 1]].headD []).length t)
    ∧ ((spectrumGrid probeJSMath [[1, 1]] 1 2 1 1).length < numSlicesOf 2 1 →
        ¬ sliceNonempty (samplesPerSliceOf 1 1) ([[(1:ℚ), 1]].headD []).length
          (spectrumGrid probeJSMath [[1, 1]] 1 2 1 1).length)
    ∧ ((∀ i, i < numSlicesOf 2 1 →
          sliceNonempty (samplesPerSliceOf 1 1) ([[(1:ℚ), 1]].headD []).length i) →
        (spectrumGrid probeJSMath [[1, 1]] 1 2 1 1).length = numSlicesOf 2 1) :=
  analyzeSpectrum_grid_length probeJSMath [[1, 1]] 1 2 1 1

theorem analyzeSpectrum_stereo_cancel_witness :
    combineChannels [List.replicate 2 1, List.replicate 2 (-1)]
        = List.replicate 2 (0 : ℚ)
    ∧ ∀ frame ∈ spectrumGrid probeJSMath
        [List.replicate 2 1, List.replicate 2 (-1)] 1 1 1 2, AllZero frame :=
  analyzeSpectrum_stereo_cancel probeJSMath rfl 2 1 1 1

theorem analyzeSpectrum_progress_protocol_witness :
    ∃ pl,
      spectrumMessages probeJSMath [[1, 1]] 1 2 1 1
          = pl ++ [SpectrumMsg.result (spectrumGrid probeJSMath [[1, 1]] 1 2 1 1)]
      ∧ pl = ((List.range (numSlicesOf 2 1)).filter (progressCond (numSlicesOf 2 1))).map
          (fun idx => progressAt (numSlicesOf 2 1) idx
            ((List.range (idx + 1)).map
              (frameAt probeJSMath [[1, 1]] 1 (samplesPerSliceOf 1 1) 4096)))
      ∧ pl.head?.map processedSlicesOf = some 1
      ∧ pl.getLast?.map processedSlicesOf = some (numSlicesOf 2 1)
      ∧ pl.getLast?.map percentOf = some 100
      ∧ (pl.map processedSlicesOf).Pairwise (· < ·) := by
  have h1 : numSlicesOf 2 1 = 2 := by
    norm_num [numSlicesOf]
    rfl
  have h2 : samplesPerSliceOf 1 1 = 1 := by
    norm_num [samplesPerSliceOf]
  refine analyzeSpectrum_progress_protocol probeJSMath [[1, 1]] 1 2 1 1 ?_ ?_
  · rw [h1]
    norm_num
  · intro t ht
    rw [h1] at ht
    rw [h2]
    simp only [List.headD_cons, List.length_cons, List.length_singleton]
    unfold sliceNonempty
    omega
